import Mathlib

/-
Verification of the typed-dataset core (src/dataset.py): a shallow embedding
of the DataSet class - JSON-like values, schema inference and validation
(DataSet.__init__ / _validate_data_types / _get_data_fields), value filtering
(DataSet.filter_by_value), relation declaration (DataSet.relate_dataset) and
lazy join resolution (DataSet.data / _update_record_with_foreign_data).

Modelling conventions:
- Python values reachable from JSON are embedded as `Value` (strings, booleans,
  ints, floats, homogeneous-or-not lists, objects, null).  Python floats are
  modelled as exact rationals: the code performs no float arithmetic, only
  equality comparisons and type inspection, so `Rat` carries exactly the
  information those operations use.
- Python `==` is `pyEq`: numeric values (bool/int/float) compare by numeric
  value across types (True == 1 == 1.0), None only equals None, strings,
  lists and dicts compare structurally.  This is implemented by comparing
  canonical forms (`canon`).
- Python exceptions are an `Except` error type: the two exceptions the module
  defines (DataLoadException, DataSetException) plus the builtin exceptions
  its code can actually raise (KeyError, TypeError, AttributeError).
- The only heap aliasing the claims depend on is the identity of the
  `_dataset_relations` list object, which `filter_by_value` shares between
  parent and child.  We model it with a store of relation-list cells; a
  `DataSet` value holds the index of its cell.  Record dictionaries are
  modelled by value, except that the in-place mutation performed by
  `_update_record_with_foreign_data` on records of the dataset being read is
  modelled explicitly by `readMut`, which returns the updated record store.
- Records are association lists with (as produced by parsing a JSON object or
  by the code itself) pairwise-distinct keys.
-/

namespace DSpec

/-- Embedding of the Python/JSON values the dataset module manipulates. -/
inductive Value where
  | str (s : String)
  | bool (b : Bool)
  | int (n : Int)
  | float (q : Rat)
  | list (elems : List Value)
  | obj (pairs : List (String × Value))
  | null

mutual

/-- Structural boolean equality on `Value` (used only to build decidable
equality; Python `==` is the separate `pyEq`). -/
def beqV : Value → Value → Bool
  | .str a, .str b => a == b
  | .bool a, .bool b => a == b
  | .int a, .int b => a == b
  | .float a, .float b => a == b
  | .list a, .list b => beqL a b
  | .obj a, .obj b => beqP a b
  | .null, .null => true
  | _, _ => false

/-- Pointwise `beqV` on lists of values. -/
def beqL : List Value → List Value → Bool
  | [], [] => true
  | a :: l, b :: m => beqV a b && beqL l m
  | _, _ => false

/-- Pointwise `beqV` on key/value pair lists. -/
def beqP : List (String × Value) → List (String × Value) → Bool
  | [], [] => true
  | (k, v) :: l, (k2, v2) :: m => k == k2 && beqV v v2 && beqP l m
  | _, _ => false

end

mutual

theorem beqV_iff : ∀ a b, beqV a b = true ↔ a = b
  | .str a, b => by cases b <;> simp [beqV]
  | .bool a, b => by cases b <;> simp [beqV]
  | .int a, b => by cases b <;> simp [beqV]
  | .float a, b => by cases b <;> simp [beqV]
  | .list a, b => by
    cases b <;> simp [beqV]
    exact beqL_iff a _
  | .obj a, b => by
    cases b <;> simp [beqV]
    exact beqP_iff a _
  | .null, b => by cases b <;> simp [beqV]

theorem beqL_iff : ∀ a b, beqL a b = true ↔ a = b
  | [], b => by cases b <;> simp [beqL]
  | x :: l, b => by
    cases b with
    | nil => simp [beqL]
    | cons y m => simp [beqL, Bool.and_eq_true, beqV_iff x y, beqL_iff l m]

theorem beqP_iff : ∀ a b, beqP a b = true ↔ a = b
  | [], b => by cases b <;> simp [beqP]
  | (k, v) :: l, b => by
    cases b with
    | nil => simp [beqP]
    | cons y m =>
      obtain ⟨k2, v2⟩ := y
      simp [beqP, Bool.and_eq_true, beqV_iff v v2, beqP_iff l m, and_assoc]

end

instance : DecidableEq Value := fun a b => decidable_of_iff _ (beqV_iff a b)

/-- Python type tags, the possible results of `type(v)` on an embedded value. -/
inductive PyType where
  | str
  | bool
  | int
  | float
  | list
  | dict
  | noneType
deriving DecidableEq

/-- Python `type(v)` on an embedded value. -/
def pyTypeOf : Value → PyType
  | .str _ => .str
  | .bool _ => .bool
  | .int _ => .int
  | .float _ => .float
  | .list _ => .list
  | .obj _ => .dict
  | .null => .noneType

/-- Lexicographic comparison of char lists by code point, the order Python
uses to compare and sort strings. -/
def charsLe : List Char → List Char → Bool
  | [], _ => true
  | _ :: _, [] => false
  | c :: cs, d :: ds =>
    if c.toNat = d.toNat then charsLe cs ds
    else decide (c.toNat < d.toNat)

/-- Python string comparison (code-point lexicographic).  Defined on the
underlying char lists so that terms reduce by kernel computation, which the
builtin String order does not. -/
def strLe (a b : String) : Bool := charsLe a.data b.data

/-- Sort a pair list by key (canonical dict layout; Python dict equality
ignores insertion order).  Insertion sort is used so that terms reduce by
kernel computation; the keys of any real dict are pairwise distinct, so any
correct ascending sort yields the same list. -/
def sortPairs (l : List (String × Value)) : List (String × Value) :=
  List.insertionSort (fun a b => strLe a.1 b.1 = true) l

mutual

/-- Canonical form realising Python `==`: numeric values (bool/int/float)
all become an exact rational, dict entries are sorted by key, everything
else is kept structurally.  Two values are `==` in Python exactly when their
canonical forms coincide. -/
def canon : Value → Value
  | .str s => .str s
  | .bool b => .float (if b then 1 else 0)
  | .int n => .float (n : Rat)
  | .float q => .float q
  | .null => .null
  | .list l => .list (canonL l)
  | .obj kvs => .obj (sortPairs (canonP kvs))

/-- Canonical forms of a list of values. -/
def canonL : List Value → List Value
  | [] => []
  | v :: l => canon v :: canonL l

/-- Canonical forms of the values of a pair list. -/
def canonP : List (String × Value) → List (String × Value)
  | [] => []
  | (k, v) :: l => (k, canon v) :: canonP l

end

/-- Python `==` on embedded values. -/
def pyEq (a b : Value) : Bool := beqV (canon a) (canon b)

/-- A record: one flat JSON object, as an association list (keys pairwise
distinct in every record the code produces or parses). -/
abbrev Record := List (String × Value)

/-- Optional lookup of a key in a record (Python `field in record` plus the
looked-up value). -/
def lookupVal (r : Record) (f : String) : Option Value :=
  (r.find? (fun p => p.1 == f)).map Prod.snd

/-- Python `record.get(field, default)`. -/
def dgetD (r : Record) (f : String) (dflt : Value) : Value :=
  (lookupVal r f).getD dflt

/-- Python `record.get(field)` - a missing key reads as None. -/
def dget (r : Record) (f : String) : Value :=
  dgetD r f .null

/-- Python `field in record.keys()`. -/
def hasField (r : Record) (f : String) : Bool :=
  (lookupVal r f).isSome

/-- Python `record[key] = v`: replace the value if the key is present,
otherwise append the new key at the end (dict insertion order). -/
def setField (r : Record) (f : String) (v : Value) : Record :=
  if hasField r f then r.map (fun p => if p.1 == f then (f, v) else p)
  else r ++ [(f, v)]

/-- Python `record.keys()`. -/
def recordKeys (r : Record) : List String := r.map Prod.fst

/-- The exceptions the dataset module can raise: its own two exception
classes, and the builtin exceptions its code reaches (`record[field]` on a
missing key, iterating a non-iterable, `.keys()` on a non-dict). -/
inductive PyErr where
  | dataLoadException
  | dataSetException
  | keyError
  | typeError
  | attributeError
deriving DecidableEq

instance {ε α : Type} [DecidableEq ε] [DecidableEq α] : DecidableEq (Except ε α)
  | .ok a, .ok b =>
    if h : a = b then isTrue (by rw [h]) else isFalse (fun hc => h (Except.ok.inj hc))
  | .ok _, .error _ => isFalse (fun hc => Except.noConfusion hc)
  | .error _, .ok _ => isFalse (fun hc => Except.noConfusion hc)
  | .error e, .error f =>
    if h : e = f then isTrue (by rw [h]) else isFalse (fun hc => h (Except.error.inj hc))

/-- Embedding of the DataSet class.  The mutable `_dataset_relations` list is
represented by the index (`relCell`) of its cell in an explicit store, since
`filter_by_value` shares that list object between parent and child dataset. -/
structure DataSet where
  name : String
  data : List Record
  fields : List String
  field_type_mapping : List (String × PyType)
  list_field_type_mapping : List (String × PyType)
  relCell : Nat
deriving DecidableEq

/-- Embedding of the DataSetRelation namedtuple. -/
structure DataSetRelation where
  foreign_data_set : DataSet
  field : String
  foreign_field : String
deriving DecidableEq

/-- The store of `_dataset_relations` list objects, indexed by `relCell`. -/
abbrev Store := List (List DataSetRelation)

/-- Contents of a relation-list cell (a dangling index reads as empty). -/
def getCell (s : Store) (i : Nat) : List DataSetRelation := s.getD i []

/-- Overwrite a relation-list cell. -/
def setCell (s : Store) (i : Nat) (rels : List DataSetRelation) : Store :=
  s.set i rels

/-- Lookup in a field-to-type mapping (Python dict keyed by field name). -/
def lookupType (m : List (String × PyType)) (f : String) : Option PyType :=
  (m.find? (fun p => p.1 == f)).map Prod.snd

/-- DataSet._get_data_fields: the sorted union of the keys of all records
(`sorted(set(...))`; insertion sort, which agrees with any ascending sort on
the duplicate-free output of `dedup`). -/
def get_data_fields (data : List Record) : List String :=
  List.insertionSort (fun a b => strLe a b = true) ((data.flatMap recordKeys).dedup)

/-- Python `[type(entry) for entry in v]`: iterating a list yields its
elements, iterating a string yields its characters (each of type str),
iterating a dict yields its keys (strings); None and the numeric types are
not iterable (TypeError). -/
def elementTypes : Value → Except PyErr (List PyType)
  | .list l => .ok (l.map pyTypeOf)
  | .str s => .ok (s.toList.map (fun _ => PyType.str))
  | .obj kvs => .ok (kvs.map (fun _ => PyType.str))
  | _ => .error .typeError

/-- Python `[type(entry) for entry in record[field]]`: `record[field]` raises
KeyError when the field is absent. -/
def recordItemTypes (r : Record) (f : String) : Except PyErr (List PyType) :=
  match lookupVal r f with
  | none => .error .keyError
  | some v => elementTypes v

/-- The per-field body of DataSet._validate_data_types: the set of non-null
value types must have exactly one element, which must not be dict; for a
list field the set of element types across all records must have exactly one
element, which becomes the list element type. -/
def validate_field (data : List Record) (f : String) :
    Except PyErr (PyType × Option PyType) :=
  let valueTypes :=
    ((data.map (fun r => pyTypeOf (dget r f))).filter
      (fun t => t ≠ PyType.noneType)).dedup
  if 1 < valueTypes.length then .error .dataLoadException
  else if valueTypes.length = 0 then .error .dataLoadException
  else
    let t := valueTypes.headD PyType.noneType
    if t = PyType.dict then .error .dataLoadException
    else if t = PyType.list then
      match data.mapM (fun r => recordItemTypes r f) with
      | .error e => .error e
      | .ok itemTypeLists =>
        if itemTypeLists.flatten.dedup.length ≠ 1 then .error .dataLoadException
        else .ok (t, some (itemTypeLists.flatten.dedup.headD PyType.noneType))
    else .ok (t, none)

/-- DataSet._validate_data_types: validate every field in order, building the
field-to-type mapping and the list-field-to-element-type mapping. -/
def validate_data_types (fields : List String) (data : List Record) :
    Except PyErr (List (String × PyType) × List (String × PyType)) :=
  match fields with
  | [] => .ok ([], [])
  | f :: fs =>
    match validate_field data f with
    | .error e => .error e
    | .ok (t, lt) =>
      match validate_data_types fs data with
      | .error e => .error e
      | .ok (ftm, lftm) =>
        .ok ((f, t) :: ftm,
          match lt with
          | some u => (f, u) :: lftm
          | none => lftm)

/-- Python `record.keys()` on an arbitrary value: AttributeError unless the
value is a dict. -/
def asRecord : Value → Except PyErr Record
  | .obj kvs => .ok kvs
  | _ => .error .attributeError

/-- DataSet.__init__ on already-parsed input.  `input` is the loaded JSON
value (for `json_path` loading, the result of `json.load`) or the
`_parsed_data` argument; `fromJson` tells which of the two paths was taken
(the reserved-field check only runs for JSON input).  The returned store has
one fresh, empty relation-list cell appended (`self._dataset_relations = []`). -/
def mkDataSet (name : String) (input : Value) (fromJson : Bool) (s : Store) :
    Except PyErr (DataSet × Store) :=
  match input with
  | .list rawList =>
    match rawList.mapM asRecord with
    | .error e => .error e
    | .ok records =>
      let flds := get_data_fields records
      if fromJson && flds.contains "_foreign_fields" then .error .dataLoadException
      else
        match validate_data_types flds records with
        | .error e => .error e
        | .ok (ftm, lftm) =>
          .ok (⟨name, records, flds, ftm, lftm, s.length⟩, s ++ [[]])
  | _ => .error .dataLoadException

/-- The list comprehension inside _update_record_with_foreign_data: the
records of the relation target whose foreign field compares `==` to the
record's local field (both read with `.get`, so a missing field reads as
None). -/
def matchingForeignRecords (record : Record) (rel : DataSetRelation) :
    List Record :=
  rel.foreign_data_set.data.filter
    (fun t => pyEq (dget record rel.field) (dget t rel.foreign_field))

/-- Python `foreign_fields[name].extend(recs)` on a defaultdict(list): extend
the group of `name` if present, otherwise create it at the end. -/
def extendGroup (groups : List (String × List Record)) (name : String)
    (recs : List Record) : List (String × List Record) :=
  match groups with
  | [] => [(name, recs)]
  | (n, rs) :: tl =>
    if n == name then (n, rs ++ recs) :: tl
    else (n, rs) :: extendGroup tl name recs

/-- The dict stored under "_foreign_fields": target-name to list of matched
raw records, as an embedded value. -/
def foreignFieldsValue (groups : List (String × List Record)) : Value :=
  .obj (groups.map (fun g => (g.1, Value.list (g.2.map Value.obj))))

/-- DataSet._update_record_with_foreign_data.  Returns the record unchanged
when it already carries "_foreign_fields" or there are no relations.
Otherwise it folds over the relations, keeping both the accumulated non-empty
groups and the match list of the relation processed last; faithfully to the
source, the final `if foreign_records:` guard tests that LAST match list
(the loop variable leaks out of the `for`), not the accumulated groups. -/
def update_record_with_foreign_data (rels : List DataSetRelation)
    (record : Record) : Record :=
  if hasField record "_foreign_fields" || rels.isEmpty then record
  else
    let result := rels.foldl
      (fun (acc : List (String × List Record) × List Record) rel =>
        let fr := matchingForeignRecords record rel
        ((if fr.isEmpty then acc.1
          else extendGroup acc.1 rel.foreign_data_set.name fr), fr))
      ([], [])
    if result.2.isEmpty then record
    else setField record "_foreign_fields" (foreignFieldsValue result.1)

/-- The list returned by the DataSet.data property. -/
def readData (s : Store) (d : DataSet) : List Record :=
  d.data.map (update_record_with_foreign_data (getCell s d.relCell))

/-- The DataSet.data property together with its side effect: the update
function mutates each stored record in place and returns that same object,
so after the call the dataset's record store IS the returned list. -/
def readMut (s : Store) (d : DataSet) : List Record × DataSet :=
  (readData s d, { d with data := readData s d })

/-- The list comprehension of the list-field branch of filter_by_value: the
membership test `value in record.get(field, [])` can itself raise, and an
exception aborts the comprehension at the offending record. -/
def listCompFilter (p : Record → Except PyErr Bool) :
    List Record → Except PyErr (List Record)
  | [] => .ok []
  | r :: l =>
    match p r with
    | .error e => .error e
    | .ok b =>
      match listCompFilter p l with
      | .error e => .error e
      | .ok rest => .ok (if b then r :: rest else rest)

/-- Python `v in container`: membership by `==` for a list, substring test
for a string, key membership for a dict (where an unhashable `v`, i.e. a
list or dict, raises TypeError); anything else is not a container
(TypeError). -/
def pyIn (v : Value) (container : Value) : Except PyErr Bool :=
  match container with
  | .list l => .ok (l.any (fun e => pyEq v e))
  | .str s =>
    match v with
    | .str t => .ok (decide (t.toList <:+: s.toList))
    | _ => .error .typeError
  | .obj kvs =>
    match v with
    | .str k => .ok (kvs.any (fun p => p.1 == k))
    | .list _ => .error .typeError
    | .obj _ => .error .typeError
    | _ => .ok false
  | _ => .error .typeError

/-- DataSet.filter_by_value.  Looks the field up in field_type_mapping
(KeyError when absent, exactly as `self.field_type_mapping[field]`), applies
the type-mismatch check only for non-list field types and non-None values,
selects the matching records (membership for a list field, `==` otherwise),
and builds the child dataset through the constructor on the selected records
(re-running validation); finally the child's relation list is made to be the
parent's very list object (`new_data_set._dataset_relations =
self._dataset_relations`), which in the model is sharing the parent's cell. -/
def filter_by_value (s : Store) (d : DataSet) (field : String) (value : Value) :
    Except PyErr (DataSet × Store) :=
  match lookupType d.field_type_mapping field with
  | none => .error .keyError
  | some field_data_type =>
    if field_data_type ≠ PyType.list ∧ value ≠ Value.null ∧
        pyTypeOf value ≠ field_data_type then
      .error .dataSetException
    else
      match (if field_data_type = PyType.list then
          listCompFilter (fun r => pyIn value (dgetD r field (.list []))) d.data
        else
          .ok (d.data.filter (fun r => pyEq (dget r field) value))) with
      | .error e => .error e
      | .ok kept =>
        match mkDataSet d.name (.list (kept.map Value.obj)) false s with
        | .error e => .error e
        | .ok (nd, s2) => .ok ({ nd with relCell := d.relCell }, s2)

/-- DataSet.relate_dataset: fail if some existing relation's target has the
same name, otherwise append one relation to this dataset's relation-list
cell.  The target dataset is captured as a value; the source captures a
reference, but no claim depends on later mutation of the target's records. -/
def relate_dataset (s : Store) (d : DataSet) (other : DataSet)
    (field foreign_field : String) : Except PyErr Store :=
  let rels := getCell s d.relCell
  if rels.any (fun rel => rel.foreign_data_set.name == other.name) then
    .error .dataSetException
  else
    .ok (setCell s d.relCell (rels ++ [⟨other, field, foreign_field⟩]))

/-- DataSet.__len__. -/
def dsLen (d : DataSet) : Nat := d.data.length

/-- Well-formedness of a dataset value: its cached fields and type mappings
are exactly what _get_data_fields and _validate_data_types compute from its
records.  Every dataset built by `mkDataSet` (hence also by
`filter_by_value`) satisfies this. -/
def WF (d : DataSet) : Prop :=
  d.fields = get_data_fields d.data ∧
  validate_data_types d.fields d.data =
    .ok (d.field_type_mapping, d.list_field_type_mapping)

/-- Fixture: dataset "A" with an int field `fa` on the first record only
(second record has only `x`). -/
def fxA : DataSet :=
  ⟨"A", [[("fa", .int 1)], [("x", .int 2)]], ["fa", "x"],
    [("fa", .int), ("x", .int)], [], 0⟩

/-- Fixture: dataset "B" with a float field `fb` on the first record only
(second record has only `g`). -/
def fxB : DataSet :=
  ⟨"B", [[("fb", .float 1)], [("g", .int 3)]], ["fb", "g"],
    [("fb", .float), ("g", .int)], [], 1⟩

/-- Fixture: single-record dataset "A" with one int field `a`. -/
def fxA1 : DataSet := ⟨"A", [[("a", .int 1)]], ["a"], [("a", .int)], [], 0⟩

/-- Fixture: dataset "B" whose only record matches `a = 1` on field `b`. -/
def fxB1 : DataSet := ⟨"B", [[("b", .int 1)]], ["b"], [("b", .int)], [], 1⟩

/-- Fixture: dataset "C" whose only record does not match `a = 1` on `c`. -/
def fxC1 : DataSet := ⟨"C", [[("c", .int 2)]], ["c"], [("c", .int)], [], 2⟩

/-- Fixture: dataset with a list-of-strings field `tags`. -/
def fxTags : DataSet :=
  ⟨"T", [[("tags", .list [.str "a"])]], ["tags"],
    [("tags", .list)], [("tags", .str)], 0⟩

/-- Fixture: dataset whose list field `l` contains a null element (the
element type of `l` is NoneType, which validation accepts). -/
def fxNullList : DataSet :=
  ⟨"L", [[("l", .list [.null])]], ["l"], [("l", .list)], [("l", .noneType)], 0⟩

/-- Fixture: the dataset produced by filtering `fxA1` on `a = 1`: same single
record, and the parent's relation-list cell (index 0). -/
def fxChild : DataSet := ⟨"A", [[("a", .int 1)]], ["a"], [("a", .int)], [], 0⟩

theorem ebind_ok {ε α β : Type} (a : α) (f : α → Except ε β) :
    (Except.ok a : Except ε α) >>= f = f a := rfl

theorem ebind_err {ε α β : Type} (e : ε) (f : α → Except ε β) :
    (Except.error e : Except ε α) >>= f = .error e := rfl

theorem charsLe_total : ∀ a b, charsLe a b = true ∨ charsLe b a = true := by
  intro a
  induction a with
  | nil => intro b; left; rfl
  | cons c cs ih =>
    intro b
    cases b with
    | nil => right; rfl
    | cons d ds =>
      by_cases h : c.toNat = d.toNat
      · simp only [charsLe, h, if_pos rfl, if_true]
        rcases ih ds with hl | hr
        · left; simpa [charsLe, h] using hl
        · right; simpa [charsLe, h.symm] using hr
      · rcases Nat.lt_or_ge c.toNat d.toNat with hlt | hge
        · left; simp [charsLe, h, hlt]
        · right
          have hlt2 : d.toNat < c.toNat := lt_of_le_of_ne hge (fun he => h he.symm)
          have h2 : d.toNat ≠ c.toNat := Nat.ne_of_lt hlt2
          simp [charsLe, h2, hlt2]

theorem charsLe_trans : ∀ a b c, charsLe a b = true → charsLe b c = true →
    charsLe a c = true := by
  intro a
  induction a with
  | nil => intro b c _ _; rfl
  | cons x xs ih =>
    intro b c hab hbc
    cases b with
    | nil => simp [charsLe] at hab
    | cons y ys =>
      cases c with
      | nil => simp [charsLe] at hbc
      | cons z zs =>
        by_cases hxy : x.toNat = y.toNat <;> by_cases hyz : y.toNat = z.toNat
        · have hxz : x.toNat = z.toNat := hxy.trans hyz
          simp only [charsLe, hxy, hyz, if_pos rfl] at hab hbc
          simp only [charsLe, hxz, if_pos rfl]
          exact ih ys zs hab hbc
        · have hlt : y.toNat < z.toNat := by simpa [charsLe, hyz] using hbc
          have hxz : x.toNat < z.toNat := hxy ▸ hlt
          simp [charsLe, Nat.ne_of_lt hxz, hxz]
        · have hlt : x.toNat < y.toNat := by simpa [charsLe, hxy] using hab
          have hxz : x.toNat < z.toNat := hyz ▸ hlt
          simp [charsLe, Nat.ne_of_lt hxz, hxz]
        · have hlt1 : x.toNat < y.toNat := by simpa [charsLe, hxy] using hab
          have hlt2 : y.toNat < z.toNat := by simpa [charsLe, hyz] using hbc
          have hxz : x.toNat < z.toNat := hlt1.trans hlt2
          simp [charsLe, Nat.ne_of_lt hxz, hxz]

instance : IsTotal String (fun a b => strLe a b = true) :=
  ⟨fun a b => charsLe_total a.data b.data⟩

instance : IsTrans String (fun a b => strLe a b = true) :=
  ⟨fun a b c => charsLe_trans a.data b.data c.data⟩

theorem canon_eq_null : ∀ v, canon v = Value.null ↔ v = Value.null := by
  intro v
  cases v <;> simp [canon]

theorem pyEq_null_right (v : Value) : pyEq v Value.null = true ↔ v = Value.null := by
  unfold pyEq
  rw [beqV_iff]
  show canon v = canon Value.null ↔ _
  rw [show canon Value.null = Value.null from rfl, canon_eq_null]

theorem isSome_omap {α β : Type} (f : α → β) (o : Option α) :
    (o.map f).isSome = o.isSome := by
  cases o <;> rfl

theorem hasField_iff_mem (r : Record) (f : String) :
    hasField r f = true ↔ f ∈ recordKeys r := by
  unfold hasField lookupVal recordKeys
  rw [isSome_omap, List.find?_isSome]
  constructor
  · rintro ⟨p, hp, hpf⟩
    exact List.mem_map.mpr ⟨p, hp, by simpa using hpf⟩
  · intro hm
    rcases List.mem_map.mp hm with ⟨p, hp, rfl⟩
    exact ⟨p, hp, by simp⟩

theorem lookupVal_append_single (r : Record) (f : String) (v : Value) :
    lookupVal (r ++ [(f, v)]) f = (lookupVal r f).or (some v) := by
  unfold lookupVal
  rw [List.find?_append]
  cases h : List.find? (fun p => p.1 == f) r with
  | none => simp [List.find?]
  | some p => simp

theorem lookupVal_map_replace (r : Record) (f : String) (v : Value)
    (h : (lookupVal r f).isSome = true) :
    lookupVal (r.map (fun p => if p.1 == f then (f, v) else p)) f = some v := by
  unfold lookupVal at h ⊢
  rw [isSome_omap] at h
  induction r with
  | nil => simp at h
  | cons p l ih =>
    by_cases hp : p.1 = f
    · simp [List.find?, hp]
    · have hb : (p.1 == f) = false := beq_eq_false_iff_ne.mpr hp
      simp only [List.map_cons, hb, Bool.false_eq_true, if_false]
      simp only [List.find?, hb] at h ⊢
      exact ih h

theorem lookupVal_setField (r : Record) (f : String) (v : Value) :
    lookupVal (setField r f v) f = some v := by
  unfold setField
  by_cases h : hasField r f = true
  · simp only [h, if_true]
    exact lookupVal_map_replace r f v h
  · have hb : hasField r f = false := by simpa using h
    simp only [hb, Bool.false_eq_true, if_false]
    rw [lookupVal_append_single]
    unfold hasField at hb
    cases hl : lookupVal r f with
    | none => simp
    | some v2 => simp [hl] at hb

theorem hasField_setField (r : Record) (f : String) (v : Value) :
    hasField (setField r f v) f = true := by
  unfold hasField
  rw [lookupVal_setField]
  rfl

theorem listCompFilter_ok_eq {p : Record → Except PyErr Bool} :
    ∀ {l res}, listCompFilter p l = .ok res →
      res = l.filter (fun a => decide (p a = .ok true)) := by
  intro l
  induction l with
  | nil =>
    intro res h
    simp only [listCompFilter] at h
    cases h
    rfl
  | cons r tl ih =>
    intro res h
    simp only [listCompFilter] at h
    cases hp : p r with
    | error e => rw [hp] at h; cases h
    | ok b =>
      rw [hp] at h
      cases hrest : listCompFilter p tl with
      | error e => rw [hrest] at h; cases h
      | ok rest =>
        rw [hrest] at h
        cases h
        cases b with
        | true => simp [List.filter, hp, ih hrest]
        | false =>
          have hne : ¬(p r = .ok true) := by rw [hp]; intro hc; cases hc
          simp [List.filter, hne, ih hrest]

theorem listCompFilter_ok_of_all {p : Record → Except PyErr Bool} :
    ∀ {l}, (∀ a ∈ l, p a = .ok true) → listCompFilter p l = .ok l := by
  intro l
  induction l with
  | nil => intro _; rfl
  | cons r tl ih =>
    intro hall
    have hr : p r = .ok true := hall r (List.mem_cons_self r tl)
    have htl : listCompFilter p tl = .ok tl :=
      ih (fun a ha => hall a (List.mem_cons_of_mem r ha))
    simp only [listCompFilter]
    rw [hr, htl]
    rfl

theorem mapM_asRecord_map_obj :
    ∀ (l : List Record), (l.map Value.obj).mapM asRecord = .ok l := by
  intro l
  induction l with
  | nil => rfl
  | cons r tl ih =>
    simp only [List.map_cons, List.mapM_cons, ih]
    rfl

theorem mapM_asRecord_ok_shape :
    ∀ {l : List Value} {rs : List Record}, l.mapM asRecord = .ok rs →
      l = rs.map Value.obj := by
  intro l
  induction l with
  | nil =>
    intro rs h
    simp only [List.mapM_nil] at h
    cases h
    rfl
  | cons v tl ih =>
    intro rs h
    simp only [List.mapM_cons] at h
    cases v with
    | obj kvs =>
      cases hrest : tl.mapM asRecord with
      | error e =>
        rw [show asRecord (.obj kvs) = .ok kvs from rfl] at h
        simp only [hrest] at h
        cases h
      | ok rest =>
        rw [show asRecord (.obj kvs) = .ok kvs from rfl] at h
        simp only [hrest] at h
        cases h
        simp [ih hrest]
    | str s => cases h
    | bool b => cases h
    | int n => cases h
    | float q => cases h
    | list es => cases h
    | null => cases h

theorem mapM_asRecord_err_of_bad :
    ∀ {l : List Value}, (∃ v ∈ l, ∀ kvs, v ≠ Value.obj kvs) →
      l.mapM asRecord = .error .attributeError := by
  intro l
  induction l with
  | nil => rintro ⟨v, hv, _⟩; cases hv
  | cons v tl ih =>
    rintro ⟨w, hw, hbad⟩
    rcases List.mem_cons.mp hw with rfl | hwtl
    · cases w with
      | obj kvs => exact absurd rfl (hbad kvs)
      | str s => rfl
      | bool b => rfl
      | int n => rfl
      | float q => rfl
      | list es => rfl
      | null => rfl
    · cases v with
      | obj kvs =>
        simp only [List.mapM_cons,
          show asRecord (.obj kvs) = .ok kvs from rfl]
        rw [ih ⟨w, hwtl, hbad⟩]
        rfl
      | str s => rfl
      | bool b => rfl
      | int n => rfl
      | float q => rfl
      | list es => rfl
      | null => rfl

theorem mapM_ok_pointwise {α β : Type} {g : α → Except PyErr β} :
    ∀ {l : List α} {res : List β}, l.mapM g = .ok res →
      ∀ a ∈ l, ∃ y, g a = .ok y := by
  intro l
  induction l with
  | nil => intro res _ a ha; cases ha
  | cons x tl ih =>
    intro res h a ha
    simp only [List.mapM_cons] at h
    cases hx : g x with
    | error e => rw [hx] at h; cases h
    | ok y =>
      rw [hx] at h
      cases hrest : tl.mapM g with
      | error e => rw [hrest] at h; cases h
      | ok rest =>
        rw [hrest] at h
        rcases List.mem_cons.mp ha with rfl | hatl
        · exact ⟨y, hx⟩
        · exact ih hrest a hatl

theorem update_record_cases (rels : List DataSetRelation) (r : Record) :
    update_record_with_foreign_data rels r = r ∨
    hasField (update_record_with_foreign_data rels r) "_foreign_fields" = true := by
  unfold update_record_with_foreign_data
  by_cases h1 : (hasField r "_foreign_fields" || rels.isEmpty) = true
  · left; simp [h1]
  · simp only [h1, Bool.false_eq_true, if_false]
    by_cases h2 :
        (rels.foldl
          (fun (acc : List (String × List Record) × List Record) rel =>
            let fr := matchingForeignRecords r rel
            ((if fr.isEmpty then acc.1
              else extendGroup acc.1 rel.foreign_data_set.name fr), fr))
          ([], [])).2.isEmpty = true
    · left
      simp only [List.isEmpty_iff] at h2
      simp [h2]
    · right
      simp only [h2, Bool.false_eq_true, if_false]
      exact hasField_setField r "_foreign_fields" _

theorem update_record_of_hasField (rels : List DataSetRelation) (r : Record)
    (h : hasField r "_foreign_fields" = true) :
    update_record_with_foreign_data rels r = r := by
  unfold update_record_with_foreign_data
  simp [h]

theorem update_record_idem (rels : List DataSetRelation) (r : Record) :
    update_record_with_foreign_data rels (update_record_with_foreign_data rels r) =
      update_record_with_foreign_data rels r := by
  rcases update_record_cases rels r with hu | hu
  · rw [hu]; exact hu
  · exact update_record_of_hasField rels _ hu

theorem validate_field_length_one {data : List Record} {f : String} {t : PyType}
    {o : Option PyType} (h : validate_field data f = .ok (t, o)) :
    ∃ a, ((data.map (fun r => pyTypeOf (dget r f))).filter
        (fun x => x ≠ PyType.noneType)).dedup = [a] ∧ t = a := by
  unfold validate_field at h
  rcases hv : ((data.map (fun r => pyTypeOf (dget r f))).filter
      (fun x => x ≠ PyType.noneType)).dedup with _ | ⟨a, tl⟩
  · rw [hv] at h
    simp at h
  · rcases tl with _ | ⟨b, tl2⟩
    · refine ⟨a, rfl, ?_⟩
      rw [hv] at h
      rw [if_neg (by simp : ¬(1 < ([a] : List PyType).length)),
        if_neg (by simp : ¬(([a] : List PyType).length = 0))] at h
      simp only [List.headD_cons] at h
      by_cases hd : a = PyType.dict
      · rw [if_pos hd] at h; cases h
      · rw [if_neg hd] at h
        by_cases hl : a = PyType.list
        · rw [if_pos hl] at h
          cases hm : data.mapM (fun r => recordItemTypes r f) with
          | error e => rw [hm] at h; cases h
          | ok its =>
            rw [hm] at h
            simp only [] at h
            by_cases hlen : its.flatten.dedup.length ≠ 1
            · rw [if_pos hlen] at h; cases h
            · rw [if_neg hlen] at h
              cases h
              rfl
        · rw [if_neg hl] at h
          cases h
          rfl
    · rw [hv] at h
      have : 1 < (a :: b :: tl2).length := by simp
      rw [if_pos this] at h
      cases h

theorem validate_field_ok_types {data : List Record} {f : String} {t : PyType}
    {o : Option PyType} (h : validate_field data f = .ok (t, o)) :
    (∀ r ∈ data, pyTypeOf (dget r f) = PyType.noneType ∨ pyTypeOf (dget r f) = t) ∧
    (∃ r ∈ data, pyTypeOf (dget r f) = t) ∧
    t ≠ PyType.noneType := by
  rcases validate_field_length_one h with ⟨a, ha, rfl⟩
  refine ⟨?_, ?_, ?_⟩
  · intro r hr
    by_cases hn : pyTypeOf (dget r f) = PyType.noneType
    · exact Or.inl hn
    · right
      have hm : pyTypeOf (dget r f) ∈
          ((data.map (fun r => pyTypeOf (dget r f))).filter
            (fun x => x ≠ PyType.noneType)).dedup := by
        rw [List.mem_dedup, List.mem_filter]
        exact ⟨List.mem_map_of_mem _ hr, by simpa using hn⟩
      rw [ha] at hm
      simpa using hm
  · have hm : t ∈ ((data.map (fun r => pyTypeOf (dget r f))).filter
        (fun x => x ≠ PyType.noneType)).dedup := by
      rw [ha]; exact List.mem_singleton_self t
    rw [List.mem_dedup, List.mem_filter] at hm
    rcases List.mem_map.mp hm.1 with ⟨r, hr, hrt⟩
    exact ⟨r, hr, hrt⟩
  · have hm : t ∈ ((data.map (fun r => pyTypeOf (dget r f))).filter
        (fun x => x ≠ PyType.noneType)).dedup := by
      rw [ha]; exact List.mem_singleton_self t
    rw [List.mem_dedup, List.mem_filter] at hm
    simpa using hm.2

theorem validate_field_list_all_lists {data : List Record} {f : String}
    {o : Option PyType} (h : validate_field data f = .ok (PyType.list, o)) :
    ∀ r ∈ data, ∃ l, lookupVal r f = some (Value.list l) := by
  have htypes := (validate_field_ok_types h).1
  have hmapM : ∃ its, data.mapM (fun r => recordItemTypes r f) = .ok its := by
    rcases validate_field_length_one h with ⟨a, ha, hta⟩
    unfold validate_field at h
    rw [ha] at h
    rw [if_neg (by simp : ¬(1 < ([a] : List PyType).length)),
      if_neg (by simp : ¬(([a] : List PyType).length = 0))] at h
    simp only [List.headD_cons] at h
    rw [if_neg (show a ≠ PyType.dict by rw [← hta]; intro hc; cases hc)] at h
    rw [if_pos hta.symm] at h
    cases hm : data.mapM (fun r => recordItemTypes r f) with
    | error e => rw [hm] at h; cases h
    | ok its => exact ⟨its, rfl⟩
  rcases hmapM with ⟨its, hits⟩
  intro r hr
  rcases mapM_ok_pointwise hits r hr with ⟨ts, hts⟩
  unfold recordItemTypes at hts
  cases hl : lookupVal r f with
  | none => rw [hl] at hts; cases hts
  | some v =>
    rw [hl] at hts
    have hty : pyTypeOf (dget r f) = PyType.noneType ∨
        pyTypeOf (dget r f) = PyType.list := htypes r hr
    have hdg : dget r f = v := by unfold dget dgetD; rw [hl]; rfl
    rw [hdg] at hty
    cases v with
    | list l => exact ⟨l, rfl⟩
    | str s => rcases hty with hc | hc <;> cases hc
    | obj kvs => rcases hty with hc | hc <;> cases hc
    | bool b => cases hts
    | int n => cases hts
    | float q => cases hts
    | null => cases hts

theorem validate_data_types_lookup :
    ∀ {fields : List String} {data : List Record}
      {ftm lftm : List (String × PyType)} {f : String} {t : PyType},
      validate_data_types fields data = .ok (ftm, lftm) →
      lookupType ftm f = some t →
      ∃ o, validate_field data f = .ok (t, o) := by
  intro fields
  induction fields with
  | nil =>
    intro data ftm lftm f t h hl
    simp only [validate_data_types] at h
    cases h
    cases hl
  | cons g fs ih =>
    intro data ftm lftm f t h hl
    simp only [validate_data_types] at h
    cases hg : validate_field data g with
    | error e => rw [hg] at h; cases h
    | ok p =>
      obtain ⟨tg, ltg⟩ := p
      rw [hg] at h
      cases hrest : validate_data_types fs data with
      | error e => rw [hrest] at h; cases h
      | ok q =>
        obtain ⟨ftm2, lftm2⟩ := q
        rw [hrest] at h
        cases h
        unfold lookupType at hl
        by_cases hgf : g = f
        · rw [List.find?_cons_of_pos _ (by simpa using hgf)] at hl
          cases hl
          exact ⟨ltg, hgf ▸ hg⟩
        · rw [List.find?_cons_of_neg _ (by simpa using hgf)] at hl
          exact ih hrest hl

theorem validate_data_types_err_of_field :
    ∀ {fields : List String} {data : List Record} {f : String} {er : PyErr},
      f ∈ fields → validate_field data f = .error er →
      ∃ er2, validate_data_types fields data = .error er2 := by
  intro fields
  induction fields with
  | nil =>
    intro data f er hf _
    cases hf
  | cons g fs ih =>
    intro data f er hf herr
    cases hg : validate_field data g with
    | error e =>
      refine ⟨e, ?_⟩
      simp only [validate_data_types]
      rw [hg]
    | ok p =>
      obtain ⟨tg, ltg⟩ := p
      rcases List.mem_cons.mp hf with rfl | hftl
      · rw [hg] at herr; cases herr
      · rcases ih hftl herr with ⟨e2, he2⟩
        refine ⟨e2, ?_⟩
        simp only [validate_data_types]
        rw [hg, he2]

theorem recordItemTypes_not_dse (r : Record) (f : String) :
    recordItemTypes r f ≠ .error .dataSetException := by
  unfold recordItemTypes
  cases lookupVal r f with
  | none => intro h; cases h
  | some v => cases v <;> intro h <;> cases h

theorem mapM_not_err {α β : Type} {g : α → Except PyErr β} {e : PyErr}
    (hg : ∀ a, g a ≠ .error e) : ∀ l : List α, l.mapM g ≠ .error e := by
  intro l
  induction l with
  | nil => intro h; cases h
  | cons x tl ih =>
    intro h
    simp only [List.mapM_cons] at h
    cases hx : g x with
    | error e2 =>
      rw [hx] at h
      cases h
      exact hg x hx
    | ok y =>
      rw [hx] at h
      cases hrest : tl.mapM g with
      | error e2 =>
        rw [hrest] at h
        cases h
        exact ih hrest
      | ok rest => rw [hrest] at h; cases h

theorem validate_field_not_dse (data : List Record) (f : String) :
    validate_field data f ≠ .error .dataSetException := by
  intro h
  unfold validate_field at h
  rcases hv : ((data.map (fun r => pyTypeOf (dget r f))).filter
      (fun x => x ≠ PyType.noneType)).dedup with _ | ⟨a, tl⟩
  · rw [hv] at h
    simp at h
  · rcases tl with _ | ⟨b, tl2⟩
    · rw [hv] at h
      rw [if_neg (by simp : ¬(1 < ([a] : List PyType).length)),
        if_neg (by simp : ¬(([a] : List PyType).length = 0))] at h
      simp only [List.headD_cons] at h
      by_cases hd : a = PyType.dict
      · rw [if_pos hd] at h; simp at h
      · rw [if_neg hd] at h
        by_cases hlst : a = PyType.list
        · rw [if_pos hlst] at h
          cases hm : data.mapM (fun r => recordItemTypes r f) with
          | error e =>
            rw [hm] at h
            cases h
            exact mapM_not_err (fun r => recordItemTypes_not_dse r f) data hm
          | ok its =>
            rw [hm] at h
            simp only [] at h
            by_cases hlen : its.flatten.dedup.length ≠ 1
            · rw [if_pos hlen] at h; simp at h
            · rw [if_neg hlen] at h; cases h
        · rw [if_neg hlst] at h
          cases h
    · rw [hv] at h
      rw [if_pos (by simp : 1 < (a :: b :: tl2).length)] at h
      simp at h

theorem validate_data_types_not_dse :
    ∀ (fields : List String) (data : List Record),
      validate_data_types fields data ≠ .error .dataSetException := by
  intro fields
  induction fields with
  | nil => intro data h; cases h
  | cons g fs ih =>
    intro data h
    simp only [validate_data_types] at h
    cases hg : validate_field data g with
    | error e =>
      rw [hg] at h
      cases h
      exact validate_field_not_dse data g hg
    | ok p =>
      obtain ⟨tg, ltg⟩ := p
      rw [hg] at h
      cases hrest : validate_data_types fs data with
      | error e =>
        rw [hrest] at h
        cases h
        exact ih data hrest
      | ok q =>
        obtain ⟨ftm2, lftm2⟩ := q
        rw [hrest] at h
        cases h

theorem asRecord_not_dse (v : Value) : asRecord v ≠ .error .dataSetException := by
  cases v <;> intro h <;> cases h

theorem mkDataSet_not_dse (n : String) (input : Value) (fj : Bool) (s : Store) :
    mkDataSet n input fj s ≠ .error .dataSetException := by
  intro h
  cases input with
  | list elems =>
    simp only [mkDataSet] at h
    cases hm : elems.mapM asRecord with
    | error e =>
      rw [hm] at h
      cases h
      exact mapM_not_err asRecord_not_dse elems hm
    | ok records =>
      rw [hm] at h
      simp only [] at h
      by_cases hres : (fj && (get_data_fields records).contains "_foreign_fields") = true
      · rw [if_pos hres] at h
        simp at h
      · rw [if_neg hres] at h
        cases hv : validate_data_types (get_data_fields records) records with
        | error e =>
          rw [hv] at h
          cases h
          exact validate_data_types_not_dse _ _ hv
        | ok p =>
          obtain ⟨ftm2, lftm2⟩ := p
          rw [hv] at h
          cases h
  | str a => simp [mkDataSet] at h
  | bool a => simp [mkDataSet] at h
  | int a => simp [mkDataSet] at h
  | float a => simp [mkDataSet] at h
  | obj a => simp [mkDataSet] at h
  | null => simp [mkDataSet] at h

theorem map_obj_inj {l m : List Record} (h : l.map Value.obj = m.map Value.obj) :
    l = m := by
  induction l generalizing m with
  | nil => cases m with
    | nil => rfl
    | cons y ym => cases h
  | cons x xl ih =>
    cases m with
    | nil => cases h
    | cons y ym =>
      simp only [List.map_cons, List.cons.injEq] at h
      rw [Value.obj.inj h.1, ih h.2]

theorem mkDataSet_ok_inv {n : String} {input : Value} {fj : Bool} {s : Store}
    {ds : DataSet} {s2 : Store} (h : mkDataSet n input fj s = .ok (ds, s2)) :
    ds.name = n ∧ input = .list (ds.data.map Value.obj) ∧
    ds.fields = get_data_fields ds.data ∧
    validate_data_types ds.fields ds.data =
      .ok (ds.field_type_mapping, ds.list_field_type_mapping) ∧
    ds.relCell = s.length ∧ s2 = s ++ [[]] ∧
    (fj = true → ds.fields.contains "_foreign_fields" = false) := by
  cases input with
  | list elems =>
    simp only [mkDataSet] at h
    cases hm : elems.mapM asRecord with
    | error e => rw [hm] at h; cases h
    | ok records =>
      rw [hm] at h
      simp only [] at h
      by_cases hres : (fj && (get_data_fields records).contains "_foreign_fields") = true
      · rw [if_pos hres] at h; cases h
      · rw [if_neg hres] at h
        cases hv : validate_data_types (get_data_fields records) records with
        | error e => rw [hv] at h; cases h
        | ok p =>
          obtain ⟨ftm2, lftm2⟩ := p
          rw [hv] at h
          cases h
          refine ⟨rfl, ?_, rfl, hv, rfl, rfl, ?_⟩
          · rw [mapM_asRecord_ok_shape hm]
          · intro hfj
            rw [hfj, Bool.true_and] at hres
            simpa using hres
  | str a => cases h
  | bool a => cases h
  | int a => cases h
  | float a => cases h
  | obj a => cases h
  | null => cases h

theorem mkDataSet_ok_of_validate {recs : List Record}
    {ftm lftm : List (String × PyType)} (n : String) (s : Store)
    (h : validate_data_types (get_data_fields recs) recs = .ok (ftm, lftm)) :
    mkDataSet n (.list (recs.map Value.obj)) false s =
      .ok (⟨n, recs, get_data_fields recs, ftm, lftm, s.length⟩, s ++ [[]]) := by
  simp only [mkDataSet]
  rw [mapM_asRecord_map_obj]
  simp only [Bool.false_and, Bool.false_eq_true, if_false]
  rw [h]

theorem mem_get_data_fields {x : String} {data : List Record} :
    x ∈ get_data_fields data ↔ ∃ r ∈ data, x ∈ recordKeys r := by
  unfold get_data_fields
  rw [(List.perm_insertionSort _ _).mem_iff, List.mem_dedup, List.mem_flatMap]

theorem sorted_get_data_fields (data : List Record) :
    (get_data_fields data).Sorted (fun a b => strLe a b = true) :=
  List.sorted_insertionSort _ _

theorem nodup_get_data_fields (data : List Record) :
    (get_data_fields data).Nodup :=
  ((List.perm_insertionSort _ _).symm).nodup (List.nodup_dedup _)

theorem getCell_setCell_self {s : Store} {i : Nat}
    (rels : List DataSetRelation) (h : i < s.length) :
    getCell (setCell s i rels) i = rels := by
  unfold getCell setCell
  rw [List.getD_eq_getElem?_getD, List.getElem?_set_self h]
  rfl

theorem getCell_setCell_ne {s : Store} {i j : Nat}
    (rels : List DataSetRelation) (h : i ≠ j) :
    getCell (setCell s i rels) j = getCell s j := by
  unfold getCell setCell
  rw [List.getD_eq_getElem?_getD, List.getD_eq_getElem?_getD,
    List.getElem?_set_ne h]

theorem getCell_append_fresh (s : Store) (i : Nat) :
    getCell (s ++ [[]]) i = getCell s i := by
  unfold getCell
  rw [List.getD_eq_getElem?_getD, List.getD_eq_getElem?_getD,
    List.getElem?_append]
  by_cases h : i < s.length
  · rw [if_pos h]
  · rw [if_neg h]
    have hge : s.length ≤ i := Nat.le_of_not_lt h
    rw [List.getElem?_eq_none hge]
    cases hd : i - s.length with
    | zero => rfl
    | succ k => rfl

theorem filter_by_value_ok_inv {s : Store} {d : DataSet} {f : String} {v : Value}
    {nd : DataSet} {s2 : Store} (h : filter_by_value s d f v = .ok (nd, s2)) :
    ∃ t kept,
      lookupType d.field_type_mapping f = some t ∧
      ¬(t ≠ PyType.list ∧ v ≠ Value.null ∧ pyTypeOf v ≠ t) ∧
      ((t = PyType.list ∧
          listCompFilter (fun r => pyIn v (dgetD r f (.list []))) d.data = .ok kept) ∨
        (t ≠ PyType.list ∧ kept = d.data.filter (fun r => pyEq (dget r f) v))) ∧
      validate_data_types (get_data_fields kept) kept =
        .ok (nd.field_type_mapping, nd.list_field_type_mapping) ∧
      nd.name = d.name ∧ nd.data = kept ∧ nd.fields = get_data_fields kept ∧
      nd.relCell = d.relCell ∧ s2 = s ++ [[]] := by
  unfold filter_by_value at h
  cases hlk : lookupType d.field_type_mapping f with
  | none => rw [hlk] at h; cases h
  | some t =>
    rw [hlk] at h
    simp only [] at h
    by_cases hcond : t ≠ PyType.list ∧ v ≠ Value.null ∧ pyTypeOf v ≠ t
    · rw [if_pos hcond] at h; cases h
    · rw [if_neg hcond] at h
      by_cases ht : t = PyType.list
      · rw [if_pos ht] at h
        cases hkept : listCompFilter (fun r => pyIn v (dgetD r f (.list []))) d.data with
        | error e => rw [hkept] at h; cases h
        | ok kept =>
          rw [hkept] at h
          simp only [] at h
          cases hmk : mkDataSet d.name (.list (kept.map Value.obj)) false s with
          | error e => rw [hmk] at h; cases h
          | ok p =>
            obtain ⟨nd0, s0⟩ := p
            rw [hmk] at h
            cases h
            rcases mkDataSet_ok_inv hmk with ⟨hn, hin, hflds, hval, _, hs0, _⟩
            have hdata : nd0.data = kept :=
              (map_obj_inj (Value.list.inj hin)).symm
            refine ⟨t, kept, rfl, hcond, Or.inl ⟨ht, rfl⟩, ?_, hn, hdata,
              hdata ▸ hflds, rfl, hs0⟩
            have hval2 : validate_data_types (get_data_fields nd0.data) nd0.data =
                .ok (nd0.field_type_mapping, nd0.list_field_type_mapping) :=
              hflds ▸ hval
            exact hdata ▸ hval2
      · rw [if_neg ht] at h
        simp only [] at h
        cases hmk : mkDataSet d.name
            (Value.list ((d.data.filter (fun r => pyEq (dget r f) v)).map Value.obj))
            false s with
        | error e => rw [hmk] at h; cases h
        | ok p =>
          obtain ⟨nd0, s0⟩ := p
          rw [hmk] at h
          cases h
          rcases mkDataSet_ok_inv hmk with ⟨hn, hin, hflds, hval, _, hs0, _⟩
          have hdata : nd0.data = d.data.filter (fun r => pyEq (dget r f) v) :=
            (map_obj_inj (Value.list.inj hin)).symm
          refine ⟨t, d.data.filter (fun r => pyEq (dget r f) v), rfl, hcond,
            Or.inr ⟨ht, rfl⟩, ?_, hn, hdata, hdata ▸ hflds, rfl, hs0⟩
          have hval2 : validate_data_types (get_data_fields nd0.data) nd0.data =
              .ok (nd0.field_type_mapping, nd0.list_field_type_mapping) :=
            hflds ▸ hval
          exact hdata ▸ hval2

theorem mkDataSet_WF {n : String} {input : Value} {fj : Bool} {s : Store}
    {ds : DataSet} {s2 : Store} (h : mkDataSet n input fj s = .ok (ds, s2)) :
    WF ds := by
  rcases mkDataSet_ok_inv h with ⟨-, -, hf, hv, -⟩
  exact ⟨hf, hv⟩

theorem filter_by_value_WF {s : Store} {d : DataSet} {f : String} {v : Value}
    {nd : DataSet} {s2 : Store} (h : filter_by_value s d f v = .ok (nd, s2)) :
    WF nd := by
  rcases filter_by_value_ok_inv h with
    ⟨t, kept, -, -, -, hval, -, hdata, hflds, -, -⟩
  constructor
  · rw [hflds, hdata]
  · rw [hflds, hdata]
    exact hdata ▸ hval

theorem pyIn_not_dse (v c : Value) : pyIn v c ≠ .error .dataSetException := by
  cases c <;> cases v <;> simp [pyIn]

theorem listCompFilter_not_err {p : Record → Except PyErr Bool} {e : PyErr}
    (hp : ∀ r, p r ≠ .error e) :
    ∀ l, listCompFilter p l ≠ .error e := by
  intro l
  induction l with
  | nil => intro h; cases h
  | cons r tl ih =>
    intro h
    simp only [listCompFilter] at h
    cases hr : p r with
    | error e2 =>
      rw [hr] at h
      cases h
      exact hp r hr
    | ok b =>
      rw [hr] at h
      cases hrest : listCompFilter p tl with
      | error e2 =>
        rw [hrest] at h
        cases h
        exact ih hrest
      | ok rest => rw [hrest] at h; cases h

theorem getCell_fresh (s : Store) : getCell (s ++ [[]]) s.length = [] := by
  unfold getCell
  rw [List.getD_eq_getElem?_getD, List.getElem?_append,
    if_neg (Nat.lt_irrefl s.length), Nat.sub_self]
  rfl

/-- C6: for every non-list field and every non-null value whose type differs
from the field's inferred type, filter_by_value fails with DataSetException
(the QueryError of the spec); nothing is constructed or modified, the call
returns the bare error. -/
theorem C6_filter_type_mismatch (s : Store) (d : DataSet) (f : String)
    (v : Value) (t : PyType)
    (h1 : lookupType d.field_type_mapping f = some t)
    (h2 : t ≠ PyType.list) (h3 : v ≠ Value.null) (h4 : pyTypeOf v ≠ t) :
    filter_by_value s d f v = .error .dataSetException := by
  unfold filter_by_value
  rw [h1]
  simp only []
  rw [if_pos ⟨h2, h3, h4⟩]

theorem C6_witness :
    filter_by_value [] fxA "fa" (Value.str "x") = .error .dataSetException :=
  C6_filter_type_mismatch [] fxA "fa" (Value.str "x") PyType.int
    (by decide) (by decide) (by decide) (by decide)

/-- C1 (amended): with a single declared relation, reading a record `r` that
does not already carry the side channel attaches, under the target's name,
exactly the target records `t` with `r.get(field) == t.get(foreign_field)`
under Python `==` (a missing field reads as None, so missing/None matches
missing/None, and numeric values of different types compare by value); the
matches are a filter of the target's record list, hence in the target's
original order, and no entry is attached when there is no match. -/
theorem C1_single_relation_side_channel (rel : DataSetRelation) (r : Record)
    (h : hasField r "_foreign_fields" = false) :
    update_record_with_foreign_data [rel] r =
      (if (matchingForeignRecords r rel).isEmpty then r
       else setField r "_foreign_fields"
         (Value.obj [(rel.foreign_data_set.name,
            Value.list ((matchingForeignRecords r rel).map Value.obj))])) := by
  unfold update_record_with_foreign_data
  rw [h]
  simp only [Bool.false_or, List.isEmpty_cons, Bool.false_eq_true, if_false,
    List.foldl_cons, List.foldl_nil]
  by_cases hm : (matchingForeignRecords r rel).isEmpty
  · simp [hm]
  · have hm2 : (matchingForeignRecords r rel).isEmpty = false := by
      simpa using hm
    simp [hm2, extendGroup, foreignFieldsValue]

theorem C1_witness :
    update_record_with_foreign_data [⟨fxB, "fa", "fb"⟩] [("fa", Value.int 1)] =
      [("fa", Value.int 1), ("_foreign_fields",
        Value.obj [("B", Value.list [Value.obj [("fb", Value.float 1)]])])] := by
  rw [C1_single_relation_side_channel ⟨fxB, "fa", "fb"⟩ [("fa", Value.int 1)]
    (by decide)]
  decide

/-- C1 (counterexample to the claim as stated): dataset A related to B on
(fa, fb).  Record `{"fa": 1}` (int) receives B's record `{"fb": 1.0}` (float)
in its side channel - Python `==` coerces int/float, so equality is NOT
exact value-and-type equality.  Record `{"x": 2}`, which is MISSING the
local field `fa`, receives B's record `{"g": 3}`, which is missing the
foreign field `fb` (None == None) - so a record missing the local field CAN
match. -/
theorem C1_counterexample :
    mkDataSet "A" (.list [.obj [("fa", .int 1)], .obj [("x", .int 2)]]) true []
      = .ok (fxA, [[]]) ∧
    mkDataSet "B" (.list [.obj [("fb", .float 1)], .obj [("g", .int 3)]]) true [[]]
      = .ok (fxB, [[], []]) ∧
    relate_dataset [[], []] fxA fxB "fa" "fb" = .ok [[⟨fxB, "fa", "fb"⟩], []] ∧
    readData [[⟨fxB, "fa", "fb"⟩], []] fxA =
      [[("fa", .int 1),
        ("_foreign_fields", .obj [("B", .list [.obj [("fb", .float 1)]])])],
       [("x", .int 2),
        ("_foreign_fields", .obj [("B", .list [.obj [("g", .int 3)]])])]] :=
  ⟨by decide, by decide, by decide, by decide⟩

/-- C2 (code bug): with two relations declared on A - first to B (which
matches) and then to C (which does not) - reading A's record attaches NO
side channel at all, because the final `if foreign_records:` guard tests the
loop variable left over from the LAST relation only; with the same two
relations declared in the opposite order the side channel IS attached and
contains B's matches.  This contradicts both the claim and the method's own
docstring ("adds a field _foreign_fields to the record when there are
matching foreign data records"). -/
theorem C2_last_relation_guard :
    mkDataSet "A" (.list [.obj [("a", .int 1)]]) true [] = .ok (fxA1, [[]]) ∧
    mkDataSet "B" (.list [.obj [("b", .int 1)]]) true [[]] = .ok (fxB1, [[], []]) ∧
    mkDataSet "C" (.list [.obj [("c", .int 2)]]) true [[], []]
      = .ok (fxC1, [[], [], []]) ∧
    relate_dataset [[], [], []] fxA1 fxB1 "a" "b" = .ok [[⟨fxB1, "a", "b"⟩], [], []] ∧
    relate_dataset [[⟨fxB1, "a", "b"⟩], [], []] fxA1 fxC1 "a" "c" =
      .ok [[⟨fxB1, "a", "b"⟩, ⟨fxC1, "a", "c"⟩], [], []] ∧
    readData [[⟨fxB1, "a", "b"⟩, ⟨fxC1, "a", "c"⟩], [], []] fxA1 =
      [[("a", Value.int 1)]] ∧
    readData [[⟨fxC1, "a", "c"⟩, ⟨fxB1, "a", "b"⟩], [], []] fxA1 =
      [[("a", Value.int 1),
        ("_foreign_fields", .obj [("B", .list [.obj [("b", .int 1)]])])]] :=
  ⟨by decide, by decide, by decide, by decide, by decide, by decide, by decide⟩

/-- C3 (amended): the data property attaches the side channel to the stored
record itself, so the record store after a read IS the returned resolved
list (first conjunct); reading is stable from then on - a second read
returns the same records and leaves the store as it is, since records that
gained the side channel are skipped and records that did not re-resolve to
the same result (second conjunct). -/
theorem C3_read_mutates_store (s : Store) (d : DataSet) :
    (readMut s d).2.data = (readMut s d).1 ∧
    readMut s ((readMut s d).2) = readMut s d := by
  refine ⟨rfl, ?_⟩
  have hstable : readData s { d with data := readData s d } = readData s d := by
    show (d.data.map (update_record_with_foreign_data (getCell s d.relCell))).map
        (update_record_with_foreign_data (getCell s d.relCell)) =
      d.data.map (update_record_with_foreign_data (getCell s d.relCell))
    rw [List.map_map]
    have hcomp : update_record_with_foreign_data (getCell s d.relCell) ∘
        update_record_with_foreign_data (getCell s d.relCell) =
        update_record_with_foreign_data (getCell s d.relCell) :=
      funext (update_record_idem (getCell s d.relCell))
    rw [hcomp]
  show (readData s { d with data := readData s d },
      { d with data := readData s { d with data := readData s d } }) = _
  rw [hstable]
  rfl

/-- C3 (counterexample to the claim as stated): after relating A to B,
reading A changes A's stored record sequence - the side-channel field is
added to the stored records in place, not to copies. -/
theorem C3_counterexample :
    mkDataSet "A" (.list [.obj [("fa", .int 1)], .obj [("x", .int 2)]]) true []
      = .ok (fxA, [[]]) ∧
    mkDataSet "B" (.list [.obj [("fb", .float 1)], .obj [("g", .int 3)]]) true [[]]
      = .ok (fxB, [[], []]) ∧
    relate_dataset [[], []] fxA fxB "fa" "fb" = .ok [[⟨fxB, "fa", "fb"⟩], []] ∧
    (readMut [[⟨fxB, "fa", "fb"⟩], []] fxA).2.data ≠ fxA.data :=
  ⟨by decide, by decide, by decide, by decide⟩

/-- C4 (amended): for every list-typed field, whenever filter_by_value
succeeds it keeps exactly the records whose membership test
`value in record.get(field, [])` evaluates to True (membership under Python
`==`, not equality of the whole list); and NO element-type check is
performed: filtering a list field never raises the type-mismatch
DataSetException, whatever the type of the value. -/
theorem C4_list_filter_membership (s : Store) (d : DataSet) (f : String)
    (v : Value)
    (hl : lookupType d.field_type_mapping f = some PyType.list) :
    (∀ nd s2, filter_by_value s d f v = .ok (nd, s2) →
      nd.data = d.data.filter
        (fun r => decide (pyIn v (dgetD r f (.list [])) = .ok true))) ∧
    filter_by_value s d f v ≠ .error .dataSetException := by
  constructor
  · intro nd s2 h
    rcases filter_by_value_ok_inv h with
      ⟨t, kept, hlk, -, hbr, -, -, hdata, -, -, -⟩
    have ht : t = PyType.list := (Option.some.inj (hl.symm.trans hlk)).symm
    rcases hbr with ⟨-, hkept⟩ | ⟨hne, -⟩
    · rw [hdata, listCompFilter_ok_eq hkept]
    · exact absurd ht hne
  · intro h
    unfold filter_by_value at h
    rw [hl] at h
    simp only [] at h
    rw [if_neg (fun hc => hc.1 rfl)] at h
    rw [if_pos trivial] at h
    cases hk : listCompFilter (fun r => pyIn v (dgetD r f (.list []))) d.data with
    | error e =>
      rw [hk] at h
      cases h
      exact listCompFilter_not_err (fun r => pyIn_not_dse v _) d.data hk
    | ok kept =>
      rw [hk] at h
      simp only [] at h
      cases hmk : mkDataSet d.name (.list (kept.map Value.obj)) false s with
      | error e =>
        rw [hmk] at h
        cases h
        exact mkDataSet_not_dse _ _ _ _ hmk
      | ok p =>
        obtain ⟨nd0, s0⟩ := p
        rw [hmk] at h
        cases h

theorem C4_witness :
    filter_by_value [[]] fxTags "tags" (Value.int 5) ≠ .error .dataSetException :=
  (C4_list_filter_membership [[]] fxTags "tags" (Value.int 5) (by decide)).2

/-- C4 (counterexample to the claim as stated): filtering the list-of-strings
field `tags` with the int value 5 - whose type disagrees with the declared
element type str - does NOT fail with the type-mismatch DataSetException;
it succeeds and returns the empty filtered dataset. -/
theorem C4_counterexample :
    mkDataSet "T" (.list [.obj [("tags", .list [.str "a"])]]) true []
      = .ok (fxTags, [[]]) ∧
    filter_by_value [[]] fxTags "tags" (Value.int 5)
      = .ok (⟨"T", [], [], [], [], 0⟩, [[], []]) :=
  ⟨by decide, by decide⟩

/-- C5 (amended): for every NON-LIST field of the schema, filter(field, None)
returns exactly the records in which the field is absent or explicitly null,
and the result has at most as many records as the input.  (For list-typed
fields the None filter is a membership test instead; see the
counterexample.) -/
theorem C5_null_filter_nonlist (s : Store) (d : DataSet) (f : String)
    (t : PyType) (hl : lookupType d.field_type_mapping f = some t)
    (ht : t ≠ PyType.list) :
    ∀ nd s2, filter_by_value s d f .null = .ok (nd, s2) →
      nd.data = d.data.filter
        (fun r => decide (lookupVal r f = none ∨ lookupVal r f = some Value.null)) ∧
      dsLen nd ≤ dsLen d := by
  intro nd s2 h
  rcases filter_by_value_ok_inv h with
    ⟨t2, kept, hlk, -, hbr, -, -, hdata, -, -, -⟩
  have ht2 : t2 = t := Option.some.inj (hlk.symm.trans hl)
  rcases hbr with ⟨hlist, -⟩ | ⟨-, hkeq⟩
  · exact absurd (ht2 ▸ hlist) ht
  · have hfe : d.data.filter (fun r => pyEq (dget r f) Value.null) =
        d.data.filter
          (fun r => decide (lookupVal r f = none ∨ lookupVal r f = some Value.null)) := by
      apply List.filter_congr
      intro r _
      cases hlv : lookupVal r f with
      | none =>
        have hdg : dget r f = Value.null := by
          unfold dget dgetD
          rw [hlv]
          rfl
        rw [hdg]
        simp [pyEq_null_right]
      | some w =>
        have hdg : dget r f = w := by
          unfold dget dgetD
          rw [hlv]
          rfl
        rw [hdg]
        by_cases hw : w = Value.null
        · simp [hw, pyEq_null_right]
        · have hb : pyEq w Value.null = false := by
            rw [← Bool.not_eq_true]
            rw [pyEq_null_right]
            exact hw
          simp [hb, hw]
    constructor
    · rw [hdata, hkeq, hfe]
    · unfold dsLen
      rw [hdata, hkeq]
      exact List.length_filter_le _ _

theorem C5_witness :
    (⟨"A", [], [], [], [], 0⟩ : DataSet).data =
      fxA1.data.filter
        (fun r => decide (lookupVal r "a" = none ∨ lookupVal r "a" = some Value.null)) ∧
    dsLen (⟨"A", [], [], [], [], 0⟩ : DataSet) ≤ dsLen fxA1 :=
  C5_null_filter_nonlist [[]] fxA1 "a" PyType.int (by decide) (by decide)
    ⟨"A", [], [], [], [], 0⟩ [[], []] (by decide)

/-- C5 (counterexample to the claim as stated): the dataset
`[{"l": [null]}]` is valid (the list field `l` has element type NoneType),
and filter("l", None) KEEPS its record - because for a list field the None
filter is the membership test `None in [None]` - although `l` is present and
not null in that record, so the claim's "exactly the records in which the
field is absent or null" fails for list fields. -/
theorem C5_counterexample :
    mkDataSet "L" (.list [.obj [("l", .list [.null])]]) true []
      = .ok (fxNullList, [[]]) ∧
    filter_by_value [[]] fxNullList "l" .null =
      .ok (⟨"L", [[("l", .list [.null])]], ["l"], [("l", .list)],
        [("l", .noneType)], 0⟩, [[], []]) ∧
    ¬(lookupVal [("l", Value.list [Value.null])] "l" = none ∨
      lookupVal [("l", Value.list [Value.null])] "l" = some Value.null) :=
  ⟨by decide, by decide, by decide⟩

/-- C7 (amended): dataset construction behaves as follows.  (1) On success
the caller receives a fully validated dataset: the input was a list of
mappings and is stored as the record list, `fields` is the duplicate-free,
code-point-sorted union of all record keys, every field passed type
validation (the mappings cached on the dataset are exactly what validation
computes), and the relation list is fresh and empty.  (2) A non-list input
raises DataLoadException.  (3) A list input with a non-mapping element
raises AttributeError, NOT DataLoadException.  (4) JSON (raw) input
containing the reserved field raises DataLoadException.  (5) If any field
of a list-of-mappings input fails validation - all-null, mixed types,
object-typed, or a list field whose element-type set does not have exactly
one member, or whose value is missing or null on some record (the latter
raising KeyError/TypeError rather than DataLoadException) - construction
does not succeed. -/
theorem C7_construction (name : String) (input : Value) (fj : Bool) (s : Store) :
    (∀ ds s2, mkDataSet name input fj s = .ok (ds, s2) →
      ds.fields.Sorted (fun a b => strLe a b = true) ∧ ds.fields.Nodup ∧
      (∀ x, x ∈ ds.fields ↔ ∃ r ∈ ds.data, x ∈ recordKeys r) ∧
      input = .list (ds.data.map Value.obj) ∧
      validate_data_types ds.fields ds.data =
        .ok (ds.field_type_mapping, ds.list_field_type_mapping) ∧
      getCell s2 ds.relCell = []) ∧
    ((∀ elems, input ≠ .list elems) →
      mkDataSet name input fj s = .error .dataLoadException) ∧
    (∀ elems, input = .list elems →
      (∃ v ∈ elems, ∀ kvs, v ≠ Value.obj kvs) →
      mkDataSet name input fj s = .error .attributeError) ∧
    (∀ records, input = .list (List.map Value.obj records) → fj = true →
      (∃ r ∈ records, hasField r "_foreign_fields" = true) →
      mkDataSet name input fj s = .error .dataLoadException) ∧
    (∀ records, input = .list (List.map Value.obj records) →
      (∃ f2 ∈ get_data_fields records, ∃ er, validate_field records f2 = .error er) →
      ∀ ds s2, mkDataSet name input fj s ≠ .ok (ds, s2)) := by
  refine ⟨?_, ?_, ?_, ?_, ?_⟩
  · intro ds s2 h
    rcases mkDataSet_ok_inv h with ⟨-, hin, hflds, hval, hrel, hs2, -⟩
    refine ⟨?_, ?_, ?_, hin, hval, ?_⟩
    · rw [hflds]; exact sorted_get_data_fields ds.data
    · rw [hflds]; exact nodup_get_data_fields ds.data
    · intro x
      rw [hflds]
      exact mem_get_data_fields
    · rw [hs2, hrel]
      exact getCell_fresh s
  · intro hnl
    cases input with
    | list elems => exact absurd rfl (hnl elems)
    | str a => rfl
    | bool a => rfl
    | int a => rfl
    | float a => rfl
    | obj a => rfl
    | null => rfl
  · rintro elems rfl hbad
    simp only [mkDataSet]
    rw [mapM_asRecord_err_of_bad hbad]
  · rintro records rfl hfj ⟨r, hr, hres⟩
    simp only [mkDataSet]
    rw [mapM_asRecord_map_obj]
    simp only []
    rw [if_pos ?hres]
    case hres =>
      rw [hfj, Bool.true_and]
      exact List.elem_iff.mpr
        (mem_get_data_fields.mpr ⟨r, hr, (hasField_iff_mem r _).mp hres⟩)
  · rintro records rfl ⟨f2, hf2, er, herr⟩ ds s2 hok
    rcases mkDataSet_ok_inv hok with ⟨-, hin, -, hval, -⟩
    have hdata : ds.data = records :=
      map_obj_inj (Value.list.inj hin).symm
    rcases validate_data_types_err_of_field hf2 herr with ⟨e2, he2⟩
    rw [mkDataSet_ok_inv hok |>.2.2.1, hdata] at hval
    rw [he2] at hval
    cases hval

theorem C7_witness :
    mkDataSet "A" (Value.int 3) true [] = .error .dataLoadException :=
  (C7_construction "A" (Value.int 3) true []).2.1
    (fun _ h => Value.noConfusion h)

/-- C7 (counterexample to the claim as stated): the input
`[{"l": [1]}, {"x": 2}]` IS a list of mappings, contains no reserved field,
every field has exactly one non-null value type, no field is object-typed
and no list holds mixed element types - yet construction raises KeyError
(record["l"] on the second record inside the list-element-type scan), not
DataLoadException, and no dataset is produced; so LoadError is not raised
"exactly when" the enumerated conditions hold. -/
theorem C7_counterexample :
    mkDataSet "X" (.list [.obj [("l", .list [.int 1])], .obj [("x", .int 2)]])
      true [] = .error .keyError :=
  by decide

/-- C8 (amended): filtering is idempotent as long as the filtered field is
still part of the result's schema: for every well-formed dataset, if
filter(D, f, v) succeeds and f still has an inferred type on the result,
then filtering the result again with the same arguments succeeds and yields
the same record list.  (When f disappears from the result - for instance
when the result is empty - the second filter raises KeyError instead; see
the counterexample.) -/
theorem C8_filter_idempotent (s : Store) (d : DataSet) (f : String) (v : Value)
    (nd : DataSet) (s2 : Store) (t2 : PyType)
    (hwf : WF d)
    (h1 : filter_by_value s d f v = .ok (nd, s2))
    (h2 : lookupType nd.field_type_mapping f = some t2) :
    ∃ nd2 s3, filter_by_value s2 nd f v = .ok (nd2, s3) ∧ nd2.data = nd.data := by
  rcases filter_by_value_ok_inv h1 with
    ⟨t, kept, hlk, hcond, hbr, hval, hname, hdata, hflds, hrel, hs2⟩
  have hwf2 := filter_by_value_WF h1
  rcases validate_data_types_lookup hwf2.2 h2 with ⟨o2, hvf2⟩
  have htypes2 := validate_field_ok_types hvf2
  rcases validate_data_types_lookup hwf.2 hlk with ⟨o1, hvf1⟩
  have htypes1 := validate_field_ok_types hvf1
  have hvald : validate_data_types (get_data_fields nd.data) nd.data =
      .ok (nd.field_type_mapping, nd.list_field_type_mapping) := by
    rw [hdata]; exact hval
  rcases hbr with ⟨htl, hkept⟩ | ⟨htne, hkeq⟩
  · subst htl
    have hkeq2 : kept = d.data.filter
        (fun r => decide (pyIn v (dgetD r f (.list [])) = .ok true)) :=
      listCompFilter_ok_eq hkept
    have hsub : ∀ r ∈ kept, r ∈ d.data := by
      intro r hr
      rw [hkeq2] at hr
      exact (List.mem_filter.mp hr).1
    have hallp : ∀ r ∈ kept, pyIn v (dgetD r f (.list [])) = .ok true := by
      intro r hr
      rw [hkeq2] at hr
      exact of_decide_eq_true (List.mem_filter.mp hr).2
    have hlists := validate_field_list_all_lists hvf1
    have ht2 : t2 = PyType.list := by
      rcases htypes2.2.1 with ⟨r, hrnd, hrt⟩
      rw [hdata] at hrnd
      rcases hlists r (hsub r hrnd) with ⟨lv, hlv⟩
      have hdg : dget r f = Value.list lv := by
        unfold dget dgetD
        rw [hlv]
        rfl
      rw [hdg] at hrt
      exact hrt.symm
    subst ht2
    unfold filter_by_value
    rw [h2]
    simp only []
    rw [if_neg (fun hc => hc.1 rfl), if_pos trivial]
    rw [listCompFilter_ok_of_all (by rw [hdata]; exact hallp)]
    simp only []
    rw [mkDataSet_ok_of_validate nd.name s2 hvald]
    exact ⟨_, _, rfl, rfl⟩
  · have ht2 : t2 = t := by
      rcases htypes2.2.1 with ⟨r, hrnd, hrt⟩
      have hrd : r ∈ d.data := by
        rw [hdata, hkeq] at hrnd
        exact (List.mem_filter.mp hrnd).1
      rcases htypes1.1 r hrd with hn | htt
      · exact absurd (hrt.symm.trans hn) htypes2.2.2
      · exact hrt.symm.trans htt
    subst ht2
    have hallkept : ∀ r ∈ kept, pyEq (dget r f) v = true := by
      intro r hr
      rw [hkeq] at hr
      exact (List.mem_filter.mp hr).2
    unfold filter_by_value
    rw [h2]
    simp only []
    rw [if_neg (fun hc => hcond ⟨hc.1, hc.2.1, hc.2.2⟩)]
    rw [if_neg htne]
    simp only []
    have hkept2 : nd.data.filter (fun r => pyEq (dget r f) v) = nd.data :=
      List.filter_eq_self.mpr (fun r hr => hallkept r (hdata ▸ hr))
    rw [hkept2]
    rw [mkDataSet_ok_of_validate nd.name s2 hvald]
    exact ⟨_, _, rfl, rfl⟩

theorem C8_witness :
    ∃ nd2 s3, filter_by_value [[], []] fxChild "a" (Value.int 1) = .ok (nd2, s3) ∧
      nd2.data = fxChild.data :=
  C8_filter_idempotent [[]] fxA1 "a" (Value.int 1) fxChild [[], []] PyType.int
    ⟨by decide, by decide⟩ (by decide) (by decide)

/-- C8 (counterexample to the claim as stated): D = [{"a": 1}].  The filter
filter(D, "a", 2) succeeds and returns the empty dataset; re-applying the
same filter to that result raises KeyError (the field "a" no longer exists
in the empty result's field_type_mapping), so filter(filter(D,f,v),f,v)
does not succeed, let alone yield the same record set. -/
theorem C8_counterexample :
    mkDataSet "A" (.list [.obj [("a", .int 1)]]) true [] = .ok (fxA1, [[]]) ∧
    filter_by_value [[]] fxA1 "a" (Value.int 2) =
      .ok (⟨"A", [], [], [], [], 0⟩, [[], []]) ∧
    filter_by_value [[], []] (⟨"A", [], [], [], [], 0⟩ : DataSet) "a"
      (Value.int 2) = .error .keyError :=
  ⟨by decide, by decide, by decide⟩

/-- C9 (amended): relate_dataset fails with DataSetException (the QueryError
of the spec) exactly when some existing relation's target carries the same
NAME as the new target - including a distinct dataset object that merely
shares the name, since only names are compared - and the error path performs
no store update at all; on success exactly one relation is appended to this
dataset's relation-list cell and every other cell is untouched, so the
target dataset is unaffected UNLESS it shares this dataset's relation-list
cell (it is a filter-derivative of this dataset or vice versa), in which
case the appended relation is visible on the target too (see the
counterexample). -/
theorem C9_relate_dataset (s : Store) (d : DataSet) (other : DataSet)
    (lf ff : String) (hcell : d.relCell < s.length) :
    ((getCell s d.relCell).any
        (fun rel => rel.foreign_data_set.name == other.name) = true →
      relate_dataset s d other lf ff = .error .dataSetException) ∧
    ((getCell s d.relCell).any
        (fun rel => rel.foreign_data_set.name == other.name) = false →
      relate_dataset s d other lf ff =
        .ok (setCell s d.relCell (getCell s d.relCell ++ [⟨other, lf, ff⟩])) ∧
      getCell (setCell s d.relCell (getCell s d.relCell ++ [⟨other, lf, ff⟩]))
          d.relCell = getCell s d.relCell ++ [⟨other, lf, ff⟩] ∧
      ∀ j, j ≠ d.relCell →
        getCell (setCell s d.relCell
          (getCell s d.relCell ++ [⟨other, lf, ff⟩])) j = getCell s j) := by
  constructor
  · intro hdup
    unfold relate_dataset
    rw [if_pos hdup]
  · intro hnd
    refine ⟨?_, getCell_setCell_self _ hcell,
      fun j hj => getCell_setCell_ne _ (Ne.symm hj)⟩
    unfold relate_dataset
    rw [if_neg (by rw [hnd]; exact Bool.false_ne_true)]

theorem C9_witness :
    relate_dataset [[]] fxA1 fxB1 "a" "b" = .ok [[⟨fxB1, "a", "b"⟩]] :=
  (((C9_relate_dataset [[]] fxA1 fxB1 "a" "b" (by decide)).2 (by decide)).1).trans
    (by decide)

/-- C9 (counterexample to the claim as stated): `child` is the dataset
returned by filtering fxA1, so it shares fxA1's relation-list cell.
Declaring a relation FROM fxA1 TO child succeeds - but it does affect the
target: child's visible relation list changes from empty to the singleton,
because target and source share the same list object. -/
theorem C9_counterexample :
    filter_by_value [[]] fxA1 "a" (Value.int 1) = .ok (fxChild, [[], []]) ∧
    relate_dataset [[], []] fxA1 fxChild "a" "a" =
      .ok [[⟨fxChild, "a", "a"⟩], []] ∧
    getCell [[], []] fxChild.relCell = [] ∧
    getCell [[⟨fxChild, "a", "a"⟩], []] fxChild.relCell =
      [⟨fxChild, "a", "a"⟩] :=
  ⟨by decide, by decide, by decide, by decide⟩

/-- C10: a dataset returned by filter_by_value shares its parent's
relation-list cell.  Hence (i) the child's cell is the parent's cell, (ii)
the parent's visible relations are unchanged by the filter itself, (iii)
declaring a relation on the child appends it to the list the parent reads,
so the parent's subsequent reads resolve against the newly related target,
and (iv) symmetrically a relation declared on the parent is visible to the
child, whose reads also resolve against it. -/
theorem C10_filter_shares_relations (s : Store) (d : DataSet) (f : String)
    (v : Value) (child : DataSet) (s2 : Store)
    (hcell : d.relCell < s.length)
    (h : filter_by_value s d f v = .ok (child, s2)) :
    child.relCell = d.relCell ∧
    getCell s2 d.relCell = getCell s d.relCell ∧
    (∀ tgt lf ff s3, relate_dataset s2 child tgt lf ff = .ok s3 →
      getCell s3 d.relCell = getCell s d.relCell ++ [⟨tgt, lf, ff⟩] ∧
      readData s3 d = d.data.map (update_record_with_foreign_data
        (getCell s d.relCell ++ [⟨tgt, lf, ff⟩]))) ∧
    (∀ tgt lf ff s3, relate_dataset s2 d tgt lf ff = .ok s3 →
      getCell s3 child.relCell = getCell s d.relCell ++ [⟨tgt, lf, ff⟩] ∧
      readData s3 child = child.data.map (update_record_with_foreign_data
        (getCell s d.relCell ++ [⟨tgt, lf, ff⟩]))) := by
  rcases filter_by_value_ok_inv h with
    ⟨t, kept, -, -, -, -, -, -, -, hrel, hs2⟩
  subst hs2
  have hlen2 : d.relCell < (s ++ [[]]).length := by
    rw [List.length_append]
    exact Nat.lt_of_lt_of_le hcell (Nat.le_add_right _ _)
  refine ⟨hrel, getCell_append_fresh s d.relCell, ?_, ?_⟩
  · intro tgt lf ff s3 hrd
    unfold relate_dataset at hrd
    by_cases hdup : (getCell (s ++ [[]]) child.relCell).any
        (fun rel => rel.foreign_data_set.name == tgt.name) = true
    · rw [if_pos hdup] at hrd
      cases hrd
    · rw [if_neg hdup] at hrd
      cases hrd
      have hc : getCell
          (setCell (s ++ [[]]) child.relCell
            (getCell (s ++ [[]]) child.relCell ++ [⟨tgt, lf, ff⟩]))
          d.relCell = getCell s d.relCell ++ [⟨tgt, lf, ff⟩] := by
        rw [hrel, getCell_setCell_self _ hlen2, getCell_append_fresh]
      refine ⟨hc, ?_⟩
      unfold readData
      rw [hc]
  · intro tgt lf ff s3 hrd
    unfold relate_dataset at hrd
    by_cases hdup : (getCell (s ++ [[]]) d.relCell).any
        (fun rel => rel.foreign_data_set.name == tgt.name) = true
    · rw [if_pos hdup] at hrd
      cases hrd
    · rw [if_neg hdup] at hrd
      cases hrd
      have hc : getCell
          (setCell (s ++ [[]]) d.relCell
            (getCell (s ++ [[]]) d.relCell ++ [⟨tgt, lf, ff⟩]))
          child.relCell = getCell s d.relCell ++ [⟨tgt, lf, ff⟩] := by
        rw [hrel, getCell_setCell_self _ hlen2, getCell_append_fresh]
      refine ⟨hc, ?_⟩
      unfold readData
      rw [hc]

theorem C10_witness :
    getCell [[⟨fxB1, "a", "b"⟩], []] fxA1.relCell =
      getCell [[]] fxA1.relCell ++ [⟨fxB1, "a", "b"⟩] :=
  (((C10_filter_shares_relations [[]] fxA1 "a" (Value.int 1) fxChild [[], []]
      (by decide) (by decide)).2.2.1) fxB1 "a" "b" [[⟨fxB1, "a", "b"⟩], []]
      (by decide)).1

end DSpec
